import Mathlib

/-!
Verification of the PR-reporter pipeline (Go sources: `internal/github/github.go`,
`internal/jira/jira.go`, the monolithic `main.go`, `internal/slack/slack.go`,
`cmd/middletier/main.go`) against its natural-language specification.

The Go code is shallowly embedded: every remote service (GitHub PR listing,
JIRA issue lookup, Slack channel membership / posting) is passed in as an
explicit environment value, and each Go function that only computes on those
inputs becomes a pure Lean function.  Go `string` helpers (`strings.ToLower`,
`strings.TrimSpace`, `strings.EqualFold`, `strings.Contains`, `strings.Split`,
`strings.Join`) are modelled character-wise on `String.data` so that every
definition evaluates by kernel reduction.
-/

namespace PRReporter

/-! ### Go string primitives -/

/-- Character-wise lower casing, modelling `strings.ToLower` (the sources only
compare ASCII user names and labels). -/
def lowerChar (c : Char) : Char :=
  if 'A' ≤ c ∧ c ≤ 'Z' then Char.ofNat (c.toNat + 32) else c

/-- Models `strings.ToLower`. -/
def goToLower (s : String) : String := ⟨s.data.map lowerChar⟩

/-- Models `strings.TrimSpace` (trim whitespace from both ends). -/
def goTrim (s : String) : String :=
  ⟨((s.data.dropWhile Char.isWhitespace).reverse.dropWhile Char.isWhitespace).reverse⟩

/-- Models `strings.EqualFold` (case-insensitive equality). -/
def goEqualFold (a b : String) : Bool := goToLower a == goToLower b

/-- Substring search on character lists: does `sub` occur inside `s`? -/
def hasSubList (sub : List Char) : List Char → Bool
  | [] => sub.isEmpty
  | c :: rest => sub.isPrefixOf (c :: rest) || hasSubList sub rest

/-- Models `strings.Contains s sub`. -/
def goContains (s sub : String) : Bool := hasSubList sub.data s.data

/-- Models `strings.Split s ","` (split on commas, keeping empty fields). -/
def splitCommaAux (acc : List Char) : List Char → List (List Char)
  | [] => [acc.reverse]
  | c :: rest =>
    if c = ',' then acc.reverse :: splitCommaAux [] rest
    else splitCommaAux (c :: acc) rest

/-- Models `strings.Split s ","`. -/
def goSplitComma (s : String) : List String := (splitCommaAux [] s.data).map String.mk

/-- Models `strings.Join xs sep`. -/
def goJoin (sep : String) : List String → String
  | [] => ""
  | [x] => x
  | x :: y :: rest => x ++ sep ++ goJoin sep (y :: rest)

/-- Last-wins lookup in an association list; models lookup in a Go `map`
that was populated by successive `m[k] = v` writes (later writes shadow
earlier ones). -/
def goMapFind (m : List (String × String)) (k : String) : Option String :=
  m.foldl (fun acc p => if p.1 = k then some p.2 else acc) none

/-! ### JIRA-ticket extraction from a PR title

`github.go` lines 85-86 and 167-178: `jiraRegex := regexp.MustCompile("POKER-\\d+")`
and `matches := jiraRegex.FindStringSubmatch(*pr.Title)`; the first match is
taken, otherwise the ticket stays `""`.  The regex engine is modelled by a
leftmost scan: at each position try to match the literal prefix followed by a
maximal nonempty digit run. -/

/-- Try to match `pat` followed by at least one digit at the head of `s`;
on success return the whole matched substring. -/
def ticketAt (pat s : List Char) : Option (List Char) :=
  if pat.isPrefixOf s then
    let ds := (s.drop pat.length).takeWhile Char.isDigit
    if ds.isEmpty then none else some (pat ++ ds)
  else none

/-- Leftmost match of `pat` + digits inside a title, `[]` when there is none.
Models `FindStringSubmatch` for the regex `pat ++ "\\d+"`. -/
def scanTicket (pat : List Char) : List Char → List Char
  | [] => []
  | c :: rest =>
    match ticketAt pat (c :: rest) with
    | some m => m
    | none => scanTicket pat rest

/-- Ticket extraction for an arbitrary project prefix. -/
def extractTicket (pat : String) (title : String) : String :=
  ⟨scanTicket pat.data title.data⟩

/-- `github.go`: the regex is `POKER-\d+`. -/
def jiraTicketPat : String := "POKER-"

/-- Ticket-identifier extraction exactly as `FetchPRs` performs it on a title. -/
def extractJiraTicket (title : String) : String := extractTicket jiraTicketPat title

/-! ### `internal/github/github.go`: `FetchPRs` -/

/-- A pull request as returned by the GitHub listing API (`go-github`'s
`*github.PullRequest`, restricted to the fields the code reads).  `user`
models `pr.User.Login` (`none` covers both `pr.User == nil` and
`pr.User.Login == nil`); each label's name is optional as in the API. -/
structure GhPR where
  number : Nat
  title : String
  htmlURL : String
  user : Option String
  assignee : Option String
  draft : Bool
  labels : List (Option String)
deriving DecidableEq, Repr

/-- `github.FetchOptions` (the fields that affect the result). -/
structure FetchOptions where
  Token : String
  Owner : String
  Repo : String
  Labels : List String
  AllowedUsers : List String
deriving DecidableEq, Repr

/-- `github.PRResult`. -/
structure PRResult where
  Number : Nat
  Title : String
  URL : String
  Assignee : String
  JiraTicket : String
  IsDraft : Bool
  Labels : List String
  Author : String
deriving DecidableEq, Repr

/-- The `PRResult` that `FetchPRs` builds for a surviving PR (github.go lines
180-204): labels with `nil` names dropped, empty assignee fallback, JIRA
ticket extracted from the title. -/
def fetchResultOf (pr : GhPR) (author : String) : PRResult :=
  { Number := pr.number
    Title := pr.title
    URL := pr.htmlURL
    Assignee := pr.assignee.getD ""
    JiraTicket := extractJiraTicket pr.title
    IsDraft := pr.draft
    Labels := pr.labels.filterMap id
    Author := author }

/-- One iteration of the `for _, pr := range allPRs` loop of `FetchPRs`
(github.go lines 88-213): skip PRs without a user; filter by the allowed-user
list (entries are `TrimSpace`d, blank entries skipped, comparison is
`EqualFold`); filter by labels (case-insensitive substring match of a filter
term inside a label name); then build the `PRResult`. -/
def fetchStep (opts : FetchOptions) (pr : GhPR) : Option PRResult :=
  match pr.user with
  | none => none
  | some author =>
    if opts.AllowedUsers.length > 0 &&
        !(opts.AllowedUsers.any fun allowedUser =>
          !(goTrim allowedUser == "") && goEqualFold (goTrim allowedUser) author) then
      none
    else if opts.Labels.length > 0 &&
        !(pr.labels.any fun lab =>
          match lab with
          | some nm => opts.Labels.any fun filterLabel =>
              goContains (goToLower nm) (goToLower filterLabel)
          | none => false) then
      none
    else some (fetchResultOf pr author)

/-- The filtering part of `FetchPRs`, applied to the PR list obtained from the
GitHub client. -/
def fetchPRsFilter (opts : FetchOptions) (allPRs : List GhPR) : List PRResult :=
  allPRs.filterMap (fetchStep opts)

/-- The remote repository's open-PR listing, as served by the GitHub API:
a list of pages, each holding at most `PerPage = 100` pull requests, in
listing order.  `client.PullRequests.List` with page `n` returns the `n`-th
element (1-based); the code requests only the default page. -/
def firstPage (pages : List (List GhPR)) : List GhPR := pages.headD []

/-- `github.FetchPRs` (github.go lines 39-220): validate options, issue a
single `client.PullRequests.List` call (`PerPage: 100`, default page — the
code never follows `resp.NextPage`), then filter. -/
def fetchPRs (opts : FetchOptions) (pages : List (List GhPR)) :
    Except String (List PRResult) :=
  if opts.Token = "" then .error "GitHub token is required"
  else if opts.Owner = "" then .error "repository owner is required"
  else if opts.Repo = "" then .error "repository name is required"
  else .ok (fetchPRsFilter opts (firstPage pages))

/-! ### `internal/jira/jira.go`: `FetchTicketInfo` / `FetchTicketsInfo` -/

/-- The fields of a JIRA issue that the code reads (`issue.Fields`): status
name (optional, as `issue.Fields.Status` may be `nil` or have an empty name),
summary, and labels (`nil` slice possible). -/
structure JiraFields where
  statusName : Option String
  summary : String
  labels : Option (List String)
deriving DecidableEq, Repr

/-- Outcome of `jiraClient.Issue.Get(ticketID, nil)`: success (possibly with
`issue == nil || issue.Fields == nil`, modelled by `found none`), an error
whose response carries HTTP 404, or any other error. -/
inductive JiraLookup where
  | found (fields : Option JiraFields)
  | notFound
  | failure (msg : String)
deriving DecidableEq, Repr

/-- `jira.TicketInfo`. -/
structure TicketInfo where
  TicketID : String
  Status : String
  Summary : String
  IsBlocked : Bool
deriving DecidableEq, Repr

/-- `jira.FetchOptions` (the fields that affect the result; `UsePAT` only
selects the HTTP transport). -/
structure JiraFetchOptions where
  URL : String
  Username : String
  APIToken : String
  UsePAT : Bool
deriving DecidableEq, Repr

/-- The blocking-vocabulary check shared by jira.go lines 140-142/154-156 and
main.go lines 548-550/562-564: does the (already lower-cased) text contain
one of `block`, `impediment`, `pause`? -/
def blockedTerm (s : String) : Bool :=
  goContains s "block" || goContains s "impediment" || goContains s "pause"

/-- The step of the blocked-by-label loop (jira.go lines 151-164): a match
sets the flag to `true`, otherwise the accumulator is kept — the flag is
never reset. -/
def blockedLabelStep (acc : Bool) (label : String) : Bool :=
  if blockedTerm (goToLower label) then true else acc

/-- Blocked-flag derivation (jira.go lines 137-164): starting from `init`
(`false` for a fresh `TicketInfo`), first check the status name, then each
label in order. -/
def deriveBlocked (init : Bool) (statusName : Option String)
    (labels : Option (List String)) : Bool :=
  let afterStatus :=
    match statusName with
    | some n => if !(n == "") && blockedTerm (goToLower n) then true else init
    | none => init
  match labels with
  | some ls => ls.foldl blockedLabelStep afterStatus
  | none => afterStatus

/-- Status extraction (jira.go lines 113-125, 165-170). -/
def ticketStatusOf (fields : Option JiraFields) : String :=
  match fields with
  | none => "No Data"
  | some f =>
    match f.statusName with
    | some n => if n = "" then "No Status" else n
    | none => "No Status"

/-- Summary extraction (jira.go lines 127-135; stays `""` when
`issue.Fields == nil`). -/
def ticketSummaryOf (fields : Option JiraFields) : String :=
  match fields with
  | none => ""
  | some f => if f.summary = "" then "No Description" else f.summary

/-- `jira.FetchTicketInfo` (jira.go lines 29-177).  The remote JIRA instance
is the environment `remote`. -/
def fetchTicketInfo (opts : JiraFetchOptions) (remote : String → JiraLookup)
    (ticketID : String) : Except String TicketInfo :=
  if ticketID = "" then .error "ticket ID is required"
  else if opts.Username = "" ∨ opts.APIToken = "" ∨ opts.URL = "" then
    .error "JIRA credentials not fully configured"
  else
    match remote ticketID with
    | .notFound =>
      .ok { TicketID := ticketID, Status := "Not Found",
            Summary := "Ticket not found", IsBlocked := false }
    | .failure msg =>
      .error ("error fetching JIRA ticket " ++ ticketID ++ ": " ++ msg)
    | .found fields =>
      .ok { TicketID := ticketID
            Status := ticketStatusOf fields
            Summary := ticketSummaryOf fields
            IsBlocked :=
              match fields with
              | some f => deriveBlocked false f.statusName f.labels
              | none => false }

/-- Last-wins lookup in the results map of `FetchTicketsInfo` (a Go
`map[string]*TicketInfo` populated by successive writes). -/
def ticketMapFind (m : List (String × TicketInfo)) (k : String) : Option TicketInfo :=
  m.foldl (fun acc p => if p.1 = k then some p.2 else acc) none

/-- One iteration of the `for _, ticketID := range ticketIDs` loop of
`FetchTicketsInfo` (jira.go lines 183-202): skip empty IDs; store the fetched
info, or an `Error` entry built from the error text, and continue. -/
def ticketsStep (opts : JiraFetchOptions) (remote : String → JiraLookup)
    (results : List (String × TicketInfo)) (ticketID : String) :
    List (String × TicketInfo) :=
  if ticketID = "" then results
  else
    match fetchTicketInfo opts remote ticketID with
    | .error e =>
      results ++ [(ticketID,
        { TicketID := ticketID, Status := "Error",
          Summary := "Error: " ++ e, IsBlocked := false })]
    | .ok ticketInfo => results ++ [(ticketID, ticketInfo)]

/-- `jira.FetchTicketsInfo` (jira.go lines 180-205): every iteration stores a
result and continues; the function always returns `(results, nil)`. -/
def fetchTicketsInfo (opts : JiraFetchOptions) (remote : String → JiraLookup)
    (ticketIDs : List String) : Except String (List (String × TicketInfo)) :=
  .ok (ticketIDs.foldl (ticketsStep opts remote) [])

/-! ### Monolithic `main.go` (the single-binary pipeline):
`GetSlackChannelUsers`, `FetchPullRequests`, `UpdateJiraInfo`,
`SendSlackMessage`, `RunReport` -/

/-- `main.Config` (the fields that affect the pipeline; `UserMapping` is the
parsed `slack_user:github_user` pair list, in input order — Go stores it in a
map, so later pairs for the same Slack user shadow earlier ones). -/
structure Config where
  GithubToken : String
  GithubOwner : String
  GithubRepo : String
  JiraURL : String
  JiraUsername : String
  JiraAPIToken : String
  SlackToken : String
  SlackChannel : String
  TeamGroup : String
  UserMapping : List (String × String)
deriving DecidableEq, Repr

/-- `main.PullRequestInfo`. -/
structure PullRequestInfo where
  Number : Nat
  Title : String
  URL : String
  Assignee : String
  JiraTicket : String
  JiraStatus : String
  Description : String
  IsDraft : Bool
  IsBlocked : Bool
deriving DecidableEq, Repr

/-- A Slack channel member as obtained from `api.GetUserInfo` (main.go lines
202-217): profile name, user ID, and the bot/deleted flags. -/
structure SlackUser where
  name : String
  id : String
  isBot : Bool
  deleted : Bool
deriving DecidableEq, Repr

/-- The member-processing loop of `GetSlackChannelUsers` (main.go lines
198-243), applied to the resolved channel's member profiles: skip bots and
deleted users, record `slack username -> user ID`, and map the Slack username
through `config.UserMapping` (defaulting to the Slack username) to build the
allowed GitHub-user list.  Channel resolution and profile fetching are the
Slack environment; their failure aborts the run upstream and is not modelled
here. -/
def getSlackChannelUsers (config : Config) (members : List SlackUser) :
    List String × List (String × String) :=
  members.foldl
    (fun acc user =>
      if user.isBot || user.deleted then acc
      else
        let githubUser := (goMapFind config.UserMapping user.name).getD user.name
        (acc.1 ++ [githubUser], acc.2 ++ [(user.name, user.id)]))
    ([], [])

/-- The `SCRUM-\d+` regex of main.go line 305. -/
def scrumTicketPat : String := "SCRUM-"

/-- Assignee rendering of `FetchPullRequests` (main.go lines 387-422):
map the GitHub login through the reverse user mapping to a Slack username and
then to a proper `<@ID>` mention, with `@username` fallbacks, or literal
`unassigned` when the PR has no assignee. -/
def part000Assignee (githubToSlackMap slackUserMap : List (String × String))
    (assignee : Option String) : String :=
  match assignee with
  | none => "unassigned"
  | some githubUsername =>
    match goMapFind githubToSlackMap githubUsername with
    | some slackUsername =>
      match goMapFind slackUserMap slackUsername with
      | some userID => "<@" ++ userID ++ ">"
      | none => "@" ++ slackUsername
    | none =>
      match goMapFind slackUserMap githubUsername with
      | some userID => "<@" ++ userID ++ ">"
      | none => "@" ++ githubUsername

/-- One iteration of the PR loop of `FetchPullRequests` (main.go lines
307-441): skip PRs without a user; require a (trimmed, case-insensitive)
allowed-user match; require a label exactly equal (case-insensitively) to
`Poker`; extract the `SCRUM-` ticket; render the assignee. -/
def part000Step (allowedUsers : List String)
    (githubToSlackMap slackUserMap : List (String × String)) (pr : GhPR) :
    Option PullRequestInfo :=
  match pr.user with
  | none => none
  | some author =>
    if !(allowedUsers.any fun allowedUser =>
        !(goTrim allowedUser == "") && goEqualFold (goTrim allowedUser) author) then
      none
    else if !(pr.labels.any fun lab =>
        match lab with
        | some nm => goEqualFold nm "Poker"
        | none => false) then
      none
    else
      some
        { Number := pr.number
          Title := pr.title
          URL := pr.htmlURL
          Assignee := part000Assignee githubToSlackMap slackUserMap pr.assignee
          JiraTicket := extractTicket scrumTicketPat pr.title
          JiraStatus := ""
          Description := ""
          IsDraft := pr.draft
          IsBlocked := false }

/-- `main.FetchPullRequests` (main.go lines 247-444).  `members` is the
resolved channel membership and `pages` the GitHub listing environment; the
returned strings are the log lines the function emits outside debug mode.
When the allowed-user set is empty the function warns and returns an empty
list without calling GitHub; otherwise a single `client.PullRequests.List`
call (`PerPage: 100`, no `NextPage` loop) supplies the PRs to filter. -/
def fetchPullRequests (config : Config) (members : List SlackUser)
    (pages : List (List GhPR)) : List PullRequestInfo × List String :=
  let resolved := getSlackChannelUsers config members
  if resolved.1.isEmpty then
    ([], ["Warning: No users found in Slack channel, no PRs will be included"])
  else
    let githubToSlackMap := config.UserMapping.map fun p => (p.2, p.1)
    let allPRs := firstPage pages
    (allPRs.filterMap (part000Step resolved.1 githubToSlackMap resolved.2), [])

/-- The per-PR JIRA update of `UpdateJiraInfo` (main.go lines 496-583):
PRs without a ticket are skipped; 404 sets status `Not Found`, other lookup
errors set status `Error`; on success status/summary/blocked flag are filled
in from the issue fields (the blocked flag is only ever set to `true`). -/
def updateJiraPR (remote : String → JiraLookup) (pr : PullRequestInfo) :
    PullRequestInfo :=
  if pr.JiraTicket = "" then pr
  else
    match remote pr.JiraTicket with
    | .notFound => { pr with JiraStatus := "Not Found" }
    | .failure _ => { pr with JiraStatus := "Error" }
    | .found none => { pr with JiraStatus := "No Data" }
    | .found (some f) =>
      { pr with
          JiraStatus := ticketStatusOf (some f)
          Description := ticketSummaryOf (some f)
          IsBlocked := deriveBlocked pr.IsBlocked f.statusName f.labels }

/-- `main.UpdateJiraInfo` (main.go lines 447-586): if no PR carries a ticket
the step is a no-op; if the JIRA credentials are not fully configured the
step logs a warning and leaves every PR untouched (it never fails the run);
otherwise each carried ticket is looked up.  Returns the updated PRs and the
emitted warning lines. -/
def updateJiraInfo (config : Config) (remote : String → JiraLookup)
    (prs : List PullRequestInfo) : List PullRequestInfo × List String :=
  if !(prs.any fun pr => !(pr.JiraTicket == "")) then (prs, [])
  else if config.JiraUsername = "" ∨ config.JiraAPIToken = "" ∨ config.JiraURL = "" then
    (prs, ["Warning: JIRA credentials not fully configured, JIRA status will show as \x27Unknown\x27"])
  else
    (prs.map (updateJiraPR remote), [])

/-- The blocked/draft tracking step shared by `SendSlackMessage` (main.go
lines 613-623) and `SendPRReport` (slack.go lines 89-99): a PR that is both
blocked and draft goes to the blocked list with a `(Blocked & Draft)`
annotation, an only-blocked PR to the blocked list, an only-draft PR to the
draft list. -/
def summaryRef (owner repo : String) (number : Nat) : String :=
  "<https://github.com/" ++ owner ++ "/" ++ repo ++ "/pull/" ++
    toString number ++ "|PR-" ++ toString number ++ ">"

/-- See `summaryRef`; the loop step over `(number, isBlocked, isDraft)`
triples. -/
def summaryStep (owner repo : String) (acc : List String × List String)
    (pr : Nat × Bool × Bool) : List String × List String :=
  if pr.2.1 && pr.2.2 then
    (acc.1 ++ [summaryRef owner repo pr.1 ++ " (Blocked & Draft)"], acc.2)
  else if pr.2.1 then (acc.1 ++ [summaryRef owner repo pr.1], acc.2)
  else if pr.2.2 then (acc.1, acc.2 ++ [summaryRef owner repo pr.1])
  else acc

/-- The contribution of a single PR to the blocked-summary list (the
`filterMap` view of the `summaryStep` fold). -/
def blockedEntry (owner repo : String) (pr : Nat × Bool × Bool) : Option String :=
  if pr.2.1 && pr.2.2 then some (summaryRef owner repo pr.1 ++ " (Blocked & Draft)")
  else if pr.2.1 then some (summaryRef owner repo pr.1)
  else none

/-- The contribution of a single PR to the draft-summary list. -/
def draftEntry (owner repo : String) (pr : Nat × Bool × Bool) : Option String :=
  if pr.2.1 then none
  else if pr.2.2 then some (summaryRef owner repo pr.1)
  else none

/-- The per-PR report line of `SendSlackMessage` (main.go lines 626-636). -/
def part000PRLine (config : Config) (i : Nat) (pr : PullRequestInfo) : String :=
  let statusPart := if pr.JiraStatus = "" then "Unknown" else pr.JiraStatus
  toString (i + 1) ++ ". *<https://github.com/" ++ config.GithubOwner ++ "/" ++
    config.GithubRepo ++ "/pull/" ++ toString pr.Number ++ "|PR-" ++
    toString pr.Number ++ ">* assigned to " ++ pr.Assignee ++ " | Jira: <" ++
    config.JiraURL ++ "/browse/" ++ pr.JiraTicket ++ "|" ++ pr.JiraTicket ++
    "> | " ++ pr.Description ++ " | *" ++ statusPart ++ "*"

/-- The message text built by `SendSlackMessage` (main.go lines 588-659):
date and total header, one line per PR, blocked/draft summary (or an `N/A`
line), and the always-present team-group mention.  (The emoji literals are
copied byte-for-byte from the source, which stores them mojibake-encoded.) -/
def sendSlackMessageText (config : Config) (prs : List PullRequestInfo)
    (currentDate : String) : String :=
  let pairs := prs.map fun pr => (pr.Number, pr.IsBlocked, pr.IsDraft)
  let tracked := pairs.foldl (summaryStep config.GithubOwner config.GithubRepo) ([], [])
  let summaryLines :=
    if tracked.1.length > 0 ∨ tracked.2.length > 0 then
      (if tracked.1.length > 0 then
        ["üö´ *Blocked:* " ++ goJoin ", " tracked.1] else []) ++
      (if tracked.2.length > 0 then
        ["üìù *Draft:* " ++ goJoin ", " tracked.2] else [])
    else ["‚úÖ *Blocked/Draft:* N/A"]
  let lines :=
    [":date: *" ++ currentDate ++ "*", "",
     ":bar_chart: *Total Open PRs: " ++ toString prs.length ++ "*", ""] ++
    prs.enum.map (fun p => part000PRLine config p.1 p.2) ++
    [""] ++ summaryLines ++
    ["", "<!subteam^" ++ config.TeamGroup ++ "> Please make sure to review these pull requests!"]
  goJoin "\n" lines

/-- `main.RunReport` (main.go lines 672-697): fetch, enrich, then send —
`SendSlackMessage` is called unconditionally once fetching succeeded, so the
run always attempts to publish exactly one message.  Returns the accumulated
log lines and the published message. -/
def runReport (config : Config) (members : List SlackUser)
    (pages : List (List GhPR)) (remote : String → JiraLookup)
    (currentDate : String) : List String × Option String :=
  let fetched := fetchPullRequests config members pages
  let updated := updateJiraInfo config remote fetched.1
  (fetched.2 ++ updated.2, some (sendSlackMessageText config updated.1 currentDate))

/-! ### `internal/slack/slack.go`: `SendPRReport` rendering -/

/-- `slack.MessageOptions` (the fields that affect the rendered text). -/
structure MessageOptions where
  GithubOwner : String
  GithubRepo : String
  JiraURL : String
  TeamGroup : String
  MentionUsers : String
  ReportTitle : String
deriving DecidableEq, Repr

/-- `slack.PRInfo`. -/
structure PRInfo where
  Number : Nat
  Title : String
  Assignee : String
  JiraTicket : String
  JiraStatus : String
  Description : String
  IsDraft : Bool
  IsBlocked : Bool
deriving DecidableEq, Repr

/-- The blocked/draft lists tracked by `SendPRReport` (slack.go lines 79-99),
reusing the three-way branch shared with main.go. -/
def prSummaryLists (opts : MessageOptions) (prs : List PRInfo) :
    List String × List String :=
  (prs.map fun pr => (pr.Number, pr.IsBlocked, pr.IsDraft)).foldl
    (summaryStep opts.GithubOwner opts.GithubRepo) ([], [])

/-- The PR link token `<https://github.com/owner/repo/pull/N|PR-N>`. -/
def prRef (opts : MessageOptions) (number : Nat) : String :=
  summaryRef opts.GithubOwner opts.GithubRepo number

/-- The blocked-items summary line of slack.go line 141. -/
def blockedText (opts : MessageOptions) (prs : List PRInfo) : String :=
  "🚫 *Blocked:* " ++ goJoin ", " (prSummaryLists opts prs).1

/-- The draft-items summary line of slack.go line 144. -/
def draftText (opts : MessageOptions) (prs : List PRInfo) : String :=
  "📝 *Draft:* " ++ goJoin ", " (prSummaryLists opts prs).2

/-- The `N/A` line of slack.go line 147. -/
def naText : String := "✅ *Blocked/Draft:* N/A"

/-- The blocked/draft footer block of `SendPRReport` (slack.go lines
136-148). -/
def summaryLines (opts : MessageOptions) (prs : List PRInfo) : List String :=
  let tracked := prSummaryLists opts prs
  if tracked.1.length > 0 ∨ tracked.2.length > 0 then
    (if tracked.1.length > 0 then [blockedText opts prs] else []) ++
    (if tracked.2.length > 0 then [draftText opts prs] else [])
  else [naText]

/-- The `<@ID>` mention tokens parsed from the comma-separated
`opts.MentionUsers` (slack.go lines 154-161): split on commas, trim, skip
blanks. -/
def parsedMentions (opts : MessageOptions) : List String :=
  ((goSplitComma opts.MentionUsers).map goTrim).filterMap fun userID =>
    if userID = "" then none else some ("<@" ++ userID ++ ">")

/-- The explicit-user mention line (slack.go line 163). -/
def mentionText (opts : MessageOptions) : String :=
  goJoin " " (parsedMentions opts) ++ " Please make sure to review these pull requests!"

/-- The team-group mention line (slack.go line 168). -/
def subteamText (opts : MessageOptions) : String :=
  "<!subteam^" ++ opts.TeamGroup ++ "> Please make sure to review these pull requests!"

/-- The closing mention block of `SendPRReport` (slack.go lines 150-169):
a non-empty `MentionUsers` takes the explicit-mention branch (the line is
only appended when at least one ID survives parsing); otherwise a non-empty
`TeamGroup` yields the subteam mention; otherwise nothing is appended. -/
def mentionLines (opts : MessageOptions) : List String :=
  if opts.MentionUsers = "" then
    (if opts.TeamGroup = "" then [] else ["", subteamText opts])
  else
    "" :: (if (parsedMentions opts).isEmpty then [] else [mentionText opts])

/-- The per-PR report line of `SendPRReport` (slack.go lines 101-133). -/
def part005PRLine (opts : MessageOptions) (i : Nat) (pr : PRInfo) : String :=
  let statusPart := if pr.JiraStatus = "" then "Unknown" else pr.JiraStatus
  let assigneeText := if pr.Assignee = "" then "unassigned" else pr.Assignee
  let jiraLink :=
    if pr.JiraTicket = "" then "N/A"
    else if opts.JiraURL = "" then pr.JiraTicket
    else "<" ++ opts.JiraURL ++ "/browse/" ++ pr.JiraTicket ++ "|" ++ pr.JiraTicket ++ ">"
  let description := if pr.Description = "" then "No description" else pr.Description
  toString (i + 1) ++ ". *" ++ prRef opts pr.Number ++ "* assigned to " ++
    assigneeText ++ " | Jira: " ++ jiraLink ++ " | " ++ description ++
    " | *" ++ statusPart ++ "*"

/-- The date line (slack.go line 63). -/
def dateText (currentDate : String) : String := ":date: *" ++ currentDate ++ "*"

/-- The total-count line (slack.go line 64). -/
def totalText (prs : List PRInfo) : String :=
  ":bar_chart: *Total Open PRs: " ++ toString prs.length ++ "*"

/-- The lines of the message rendered by `SendPRReport` (slack.go lines
61-171), in append order: optional title, date, total count, per-PR lines,
blocked/draft summary, closing mention.  `currentDate` stands for
`time.Now().Format("2006-01-02")`. -/
def reportLines (opts : MessageOptions) (prs : List PRInfo)
    (currentDate : String) : List String :=
  (if opts.ReportTitle = "" then [] else ["📋 *" ++ opts.ReportTitle ++ "*", ""]) ++
  ((dateText currentDate ::
      ("" :: totalText prs :: "" ::
        (prs.enum.map (fun p => part005PRLine opts p.1 p.2) ++
          [""] ++ summaryLines opts prs))) ++
    mentionLines opts)

/-- The message string posted by `SendPRReport` (lines joined by newlines). -/
def renderedReport (opts : MessageOptions) (prs : List PRInfo)
    (currentDate : String) : String :=
  goJoin "\n" (reportLines opts prs currentDate)

/-! ### `cmd/middletier/main.go`: the modular pipeline around the enricher -/

/-- `slack.MapGitHubUserToMention` (slack.go lines 305-316). -/
def mapGitHubUserToMention (githubToSlackMap : List (String × String))
    (githubUsername : String) : String :=
  if githubUsername = "" then ""
  else
    match goMapFind githubToSlackMap githubUsername with
    | some slackUserID => "<@" ++ slackUserID ++ ">"
    | none => "@" ++ githubUsername

/-- The enrichment call of `cmd/middletier/main.go`: collect the ticket IDs
of the fetched PRs and, when there is at least one, call
`jira.FetchTicketsInfo` (whose error branch — never taken — would reset the
map to empty).  `none` models the `nil` map when no PR carries a ticket. -/
def middletierJiraInfo (opts : JiraFetchOptions) (remote : String → JiraLookup)
    (githubPRs : List PRResult) : Option (List (String × TicketInfo)) :=
  let jiraTicketIDs := githubPRs.filterMap fun pr =>
    if pr.JiraTicket = "" then none else some pr.JiraTicket
  if jiraTicketIDs.isEmpty then none
  else
    match fetchTicketsInfo opts remote jiraTicketIDs with
    | .ok m => some m
    | .error _ => some []

/-- The PR-conversion loop of `cmd/middletier/main.go`: start from an empty
status / the PR title as description / not blocked, and overwrite from the
enrichment map when the PR's ticket is present there. -/
def middletierConvert (githubToSlackMap : List (String × String))
    (jiraInfo : Option (List (String × TicketInfo))) (pr : PRResult) : PRInfo :=
  let enriched :=
    match jiraInfo with
    | none => none
    | some m => if pr.JiraTicket = "" then none else ticketMapFind m pr.JiraTicket
  let assignee :=
    if pr.Assignee = "" then pr.Assignee
    else mapGitHubUserToMention githubToSlackMap pr.Assignee
  { Number := pr.Number
    Title := pr.Title
    Assignee := assignee
    JiraTicket := pr.JiraTicket
    JiraStatus := match enriched with | some t => t.Status | none => ""
    Description := match enriched with | some t => t.Summary | none => pr.Title
    IsDraft := pr.IsDraft
    IsBlocked := match enriched with | some t => t.IsBlocked | none => false }

/-! ### Spec-side predicate for the Collector filter

The specification describes inclusion declaratively; this predicate follows
its wording so it can be compared with the behaviour of `fetchStep`. -/

/-- Modelled from the spec wording of the Collector filter (spec §4.2 and the
claim): the PR has an author and either the allow-list is empty or the author
case-insensitively equals some non-blank allow-list entry; and either the
label filter is empty or some PR label contains (case-insensitive substring)
some filter term.  (Deliberately NOT taken from the source: it is the
reading being checked against `fetchStep`.) -/
def claimIncluded (opts : FetchOptions) (pr : GhPR) : Bool :=
  (match pr.user with
   | none => false
   | some author =>
     (opts.AllowedUsers.isEmpty ||
       opts.AllowedUsers.any fun u =>
         !(goTrim u == "") && goToLower u == goToLower author) &&
     (opts.Labels.isEmpty ||
       pr.labels.any fun lab =>
         match lab with
         | some nm => opts.Labels.any fun f => goContains (goToLower nm) (goToLower f)
         | none => false))

/-! ### Concrete inputs used by counterexamples and witnesses -/

/-- A repository owner/options with no filtering, for the pagination check. -/
def c1Opts : FetchOptions :=
  { Token := "token", Owner := "owner", Repo := "repo", Labels := [], AllowedUsers := [] }

/-- The `i`-th open PR of the pagination scenario. -/
def c1PR (i : Nat) : GhPR :=
  { number := i, title := "title", htmlURL := "url", user := some "alice",
    assignee := none, draft := false, labels := [] }

/-- A repository with 101 open PRs: the GitHub API serves them as a full
first page of 100 plus a second page with one PR. -/
def c1Pages : List (List GhPR) := [(List.range 100).map c1PR, [c1PR 100]]

/-- What the single-page `FetchPRs` actually produces on `c1Pages`. -/
def c1Fetched : List PRResult := fetchPRsFilter c1Opts (firstPage c1Pages)

/-- Unconfigured JIRA credentials. -/
def c2Opts : JiraFetchOptions :=
  { URL := "", Username := "", APIToken := "", UsePAT := false }

/-- A JIRA instance that is never reached (the credential check fires
first). -/
def c2Remote : String → JiraLookup := fun _ => .failure "unreachable"

/-- A collected PR carrying a ticket, entering the middletier enrichment. -/
def c2GhPR : PRResult :=
  { Number := 7, Title := "Fix POKER-9", URL := "u", Assignee := "",
    JiraTicket := "POKER-9", IsDraft := false, Labels := [], Author := "alice" }

/-- A monolithic-pipeline configuration whose JIRA credentials are missing. -/
def c2Config : Config :=
  { GithubToken := "ghtok", GithubOwner := "owner", GithubRepo := "repo",
    JiraURL := "", JiraUsername := "", JiraAPIToken := "", SlackToken := "slacktok",
    SlackChannel := "#chan", TeamGroup := "GRP", UserMapping := [] }

/-- A collected PR (monolithic pipeline) carrying a ticket. -/
def c2PRInfo : PullRequestInfo :=
  { Number := 7, Title := "t SCRUM-1", URL := "u", Assignee := "unassigned",
    JiraTicket := "SCRUM-1", JiraStatus := "", Description := "",
    IsDraft := false, IsBlocked := false }

/-- Configured JIRA credentials for the enrichment-isolation witness. -/
def c5Opts : JiraFetchOptions :=
  { URL := "https://jira.example.com", Username := "user", APIToken := "token",
    UsePAT := false }

/-- A JIRA instance where `POKER-7` is missing (404) and every other lookup
fails with a server error. -/
def c5Remote : String → JiraLookup :=
  fun ticketID => if ticketID = "POKER-7" then .notFound else .failure "boom"

/-- The ticket list of the enrichment-isolation witness. -/
def c5IDs : List String := ["POKER-7", "POKER-8"]

/-- A full configuration for the monolithic pipeline. -/
def c3Config : Config :=
  { GithubToken := "ghtok", GithubOwner := "owner", GithubRepo := "repo",
    JiraURL := "https://jira.example.com", JiraUsername := "ju",
    JiraAPIToken := "jt", SlackToken := "slacktok", SlackChannel := "#chan",
    TeamGroup := "GRP", UserMapping := [] }

/-- A JIRA instance for the empty-channel scenario (never consulted). -/
def c3Remote : String → JiraLookup := fun _ => .failure "unreachable"

/-- Allow-list with an entry padded by whitespace. -/
def c4Opts : FetchOptions :=
  { Token := "t", Owner := "o", Repo := "r", Labels := [], AllowedUsers := [" alice "] }

/-- A PR authored by `alice`. -/
def c4PR : GhPR :=
  { number := 1, title := "Fix bug", htmlURL := "u", user := some "alice",
    assignee := none, draft := false, labels := [] }

/-- Message options with both an explicit mention list and a team group. -/
def c9OptsA : MessageOptions :=
  { GithubOwner := "o", GithubRepo := "r", JiraURL := "", TeamGroup := "G",
    MentionUsers := "U1,U2", ReportTitle := "" }

/-- Message options with only a team group. -/
def c9OptsB : MessageOptions :=
  { GithubOwner := "o", GithubRepo := "r", JiraURL := "", TeamGroup := "G",
    MentionUsers := "", ReportTitle := "" }

/-- A blocked (non-draft) PR. -/
def c9Blocked : PRInfo :=
  { Number := 1, Title := "t", Assignee := "a", JiraTicket := "", JiraStatus := "",
    Description := "", IsDraft := false, IsBlocked := true }

/-- A draft (non-blocked) PR. -/
def c9Draft : PRInfo :=
  { Number := 2, Title := "t", Assignee := "a", JiraTicket := "", JiraStatus := "",
    Description := "", IsDraft := true, IsBlocked := false }

/-- A PR that is both blocked and draft. -/
def c10Both : PRInfo :=
  { Number := 3, Title := "t", Assignee := "a", JiraTicket := "", JiraStatus := "",
    Description := "", IsDraft := true, IsBlocked := true }

/-! ## Helper lemmas -/

lemma data_append (a b : String) : (a ++ b).data = a.data ++ b.data := by
  cases a
  cases b
  rfl

lemma head_of_append (a x : String) (c : Char) (hc : a.data.head? = some c) :
    (a ++ x).data.head? = some c := by
  rw [data_append, List.head?_append, hc]
  rfl

lemma append_ne_of_head (a x b y : String) (c d : Char)
    (hc : a.data.head? = some c) (hd2 : b.data.head? = some d) (hne : c ≠ d) :
    a ++ x ≠ b ++ y := by
  intro h
  have h1 := head_of_append a x c hc
  have h2 := head_of_append b y d hd2
  rw [h, h2] at h1
  exact hne (Option.some.inj h1).symm

lemma ne_of_head_append (a x b : String) (c d : Char)
    (hc : a.data.head? = some c) (hd2 : b.data.head? = some d) (hne : c ≠ d) :
    a ++ x ≠ b := by
  intro h
  have h1 := head_of_append a x c hc
  rw [h, hd2] at h1
  exact hne (Option.some.inj h1).symm

lemma getLast?_append_right {α : Type} (l₁ l₂ : List α) (h : l₂ ≠ []) :
    (l₁ ++ l₂).getLast? = l₂.getLast? := by
  rw [List.getLast?_append]
  rcases hl : l₂.getLast? with _ | y
  · exact absurd (List.getLast?_eq_none_iff.mp hl) h
  · rfl

lemma isPrefixOf_append_self (l₁ l₂ : List Char) : l₁.isPrefixOf (l₁ ++ l₂) = true := by
  induction l₁ with
  | nil => cases l₂ <;> rfl
  | cons c rest ih => simp [List.isPrefixOf, ih]

lemma ticketAt_eq_some (pat s m : List Char) :
    ticketAt pat s = some m ↔
      pat.isPrefixOf s = true ∧ (s.drop pat.length).takeWhile Char.isDigit ≠ [] ∧
        m = pat ++ (s.drop pat.length).takeWhile Char.isDigit := by
  unfold ticketAt
  by_cases hp : pat.isPrefixOf s = true
  · by_cases he : ((s.drop pat.length).takeWhile Char.isDigit).isEmpty = true
    · simp [hp, he, List.isEmpty_iff.mp he]
    · have hne : (s.drop pat.length).takeWhile Char.isDigit ≠ [] := by
        intro hnil
        rw [hnil] at he
        exact he rfl
      simp [hp, he, hne, eq_comm]
  · simp [hp]

/-! ## C7: ticket extraction is total and idempotent -/

lemma scanTicket_shape (pat : List Char) (s : List Char) :
    scanTicket pat s = [] ∨
      ∃ ds, ds ≠ [] ∧ (∀ c ∈ ds, c.isDigit = true) ∧ scanTicket pat s = pat ++ ds := by
  induction s with
  | nil => exact Or.inl rfl
  | cons c rest ih =>
    rcases h : ticketAt pat (c :: rest) with _ | m
    · simpa [scanTicket, h] using ih
    · right
      obtain ⟨hp, hne, hm⟩ := (ticketAt_eq_some pat (c :: rest) m).mp h
      refine ⟨((c :: rest).drop pat.length).takeWhile Char.isDigit, hne, ?_, ?_⟩
      · intro x hx
        exact List.mem_takeWhile_imp hx
      · rw [← hm]
        simp [scanTicket, h]

lemma scanTicket_fixed (pat ds : List Char) (hpat : pat ≠ [])
    (hne : ds ≠ []) (hdig : ∀ c ∈ ds, c.isDigit = true) :
    scanTicket pat (pat ++ ds) = pat ++ ds := by
  have htw : ds.takeWhile Char.isDigit = ds := List.takeWhile_eq_self_iff.mpr hdig
  have hat : ticketAt pat (pat ++ ds) = some (pat ++ ds) := by
    unfold ticketAt
    rw [isPrefixOf_append_self, List.drop_left, htw]
    simp [hne]
  rcases hp : pat with _ | ⟨c, pt⟩
  · exact absurd hp hpat
  · rw [← hp]
    have hcons : pat ++ ds = c :: (pt ++ ds) := by rw [hp]; rfl
    rw [hcons, scanTicket, ← hcons, hat]

/-- C7: Ticket-identifier extraction from a PR title is total and idempotent:
for every title it returns either a `POKER-` + digits substring or the empty
string (never an error), and applying the extraction twice to the same title
(or to its own output) yields the same result. -/
theorem extractJiraTicket_idempotent (title : String) :
    extractJiraTicket (extractJiraTicket title) = extractJiraTicket title ∧
      (extractJiraTicket title = "" ∨
        ∃ ds, ds ≠ [] ∧ (∀ c ∈ ds, c.isDigit = true) ∧
          extractJiraTicket title = ⟨jiraTicketPat.data ++ ds⟩) := by
  rcases scanTicket_shape jiraTicketPat.data title.data with h | ⟨ds, hne, hdig, h⟩
  · constructor
    · show extractTicket jiraTicketPat (extractJiraTicket title) = extractJiraTicket title
      have hres : extractJiraTicket title = "" := by
        show (⟨scanTicket jiraTicketPat.data title.data⟩ : String) = ""
        rw [h]
      rw [hres]
      rfl
    · left
      show (⟨scanTicket jiraTicketPat.data title.data⟩ : String) = ""
      rw [h]
  · have hres : extractJiraTicket title = ⟨jiraTicketPat.data ++ ds⟩ := by
      show (⟨scanTicket jiraTicketPat.data title.data⟩ : String) = _
      rw [h]
    constructor
    · rw [hres]
      show (⟨scanTicket jiraTicketPat.data (jiraTicketPat.data ++ ds)⟩ : String) = _
      rw [scanTicket_fixed jiraTicketPat.data ds (by decide) hne hdig]
    · exact Or.inr ⟨ds, hne, hdig, hres⟩

/-! ## C6: blocked-flag derivation -/

lemma blockedLabelStep_or (b : Bool) (lab : String) :
    blockedLabelStep b lab = (b || blockedTerm (goToLower lab)) := by
  unfold blockedLabelStep
  by_cases h : blockedTerm (goToLower lab) = true
  · simp [h]
  · simp [h, Bool.of_not_eq_true h]

lemma foldl_blockedLabelStep (ls : List String) (b : Bool) :
    ls.foldl blockedLabelStep b =
      (b || ls.any fun lab => blockedTerm (goToLower lab)) := by
  induction ls generalizing b with
  | nil => simp
  | cons lab rest ih =>
    rw [List.foldl_cons, ih, blockedLabelStep_or]
    simp [Bool.or_assoc]

/-- C6: A fetched ticket's blocked flag is set exactly when the status name
or at least one ticket label contains (case-insensitive substring) one of
`block`, `impediment`, `pause`; the status name is checked first and then the
labels, and the derivation is monotonic: the label loop started from an
already-set flag can never reset it. -/
lemma deriveBlocked_false_or (sn : Option String) (labels : Option (List String)) :
    deriveBlocked false sn labels =
      ((match sn with
        | some n => !(n == "") && blockedTerm (goToLower n)
        | none => false) ||
        (labels.getD []).any fun lab => blockedTerm (goToLower lab)) := by
  unfold deriveBlocked
  cases sn with
  | none =>
    cases labels with
    | none => simp
    | some ls => simp [foldl_blockedLabelStep]
  | some n =>
    have hif : (if !(n == "") && blockedTerm (goToLower n) then true else false) =
        (!(n == "") && blockedTerm (goToLower n)) := by
      by_cases hc : (!(n == "") && blockedTerm (goToLower n)) = true
      · simp [hc]
      · simp [Bool.of_not_eq_true hc]
    cases labels with
    | none => simpa using hif
    | some ls =>
      simp only [foldl_blockedLabelStep, hif, Option.getD_some]

theorem deriveBlocked_spec (statusName : Option String) (labels : Option (List String)) :
    (deriveBlocked false statusName labels = true ↔
      ((∃ n, statusName = some n ∧ blockedTerm (goToLower n) = true) ∨
        ∃ lab ∈ labels.getD [], blockedTerm (goToLower lab) = true)) ∧
      (labels.getD []).foldl blockedLabelStep true = true := by
  constructor
  · rw [deriveBlocked_false_or]
    cases statusName with
    | none => simp [List.any_eq_true]
    | some n =>
      by_cases hn : n = ""
      · subst hn
        have hbt : blockedTerm (goToLower "") = false := by decide
        simp [hbt, List.any_eq_true]
      · simp [hn, List.any_eq_true]
  · rw [foldl_blockedLabelStep]
    rfl

/-! ## C8: rendering is deterministic up to the date line -/

/-- C8: Message rendering is deterministic: for a fixed PR list and message
options the rendered report lines are identical for any two run dates except
for the single embedded date line. -/
theorem reportLines_deterministic_mod_date (opts : MessageOptions)
    (prs : List PRInfo) (d₁ d₂ : String) :
    ∃ pre post,
      reportLines opts prs d₁ = pre ++ dateText d₁ :: post ∧
        reportLines opts prs d₂ = pre ++ dateText d₂ :: post :=
  ⟨_, _, rfl, rfl⟩

/-! ## C9/C10: the blocked/draft summary and the footer -/

lemma summaryStep_entries (owner repo : String) (acc : List String × List String)
    (pr : Nat × Bool × Bool) :
    summaryStep owner repo acc pr =
      (acc.1 ++ (blockedEntry owner repo pr).toList,
        acc.2 ++ (draftEntry owner repo pr).toList) := by
  obtain ⟨n, b, d⟩ := pr
  cases b <;> cases d <;> simp [summaryStep, blockedEntry, draftEntry]

lemma summary_foldl (owner repo : String) (l : List (Nat × Bool × Bool))
    (a b : List String) :
    l.foldl (summaryStep owner repo) (a, b) =
      (a ++ l.filterMap (blockedEntry owner repo),
        b ++ l.filterMap (draftEntry owner repo)) := by
  induction l generalizing a b with
  | nil => simp
  | cons pr rest ih =>
    rw [List.foldl_cons, summaryStep_entries, ih]
    obtain ⟨n, pb, pd⟩ := pr
    cases pb <;> cases pd <;>
      simp [blockedEntry, draftEntry, List.filterMap_cons]

lemma prSummaryLists_eq (opts : MessageOptions) (prs : List PRInfo) :
    prSummaryLists opts prs =
      ((prs.map fun pr => (pr.Number, pr.IsBlocked, pr.IsDraft)).filterMap
          (blockedEntry opts.GithubOwner opts.GithubRepo),
        (prs.map fun pr => (pr.Number, pr.IsBlocked, pr.IsDraft)).filterMap
          (draftEntry opts.GithubOwner opts.GithubRepo)) := by
  unfold prSummaryLists
  rw [summary_foldl]
  simp

/-- C10: A PR that is both blocked and draft is listed only in the
blocked-items summary, with the `(Blocked & Draft)` annotation, and never in
the draft-items summary; every draft-summary entry comes from a PR that is
draft and not blocked, and every blocked-summary entry from a blocked PR —
so each PR feeds at most one of the two lists. -/
theorem blocked_draft_summary_exclusive (opts : MessageOptions) (prs : List PRInfo) :
    (∀ pr ∈ prs, pr.IsBlocked = true → pr.IsDraft = true →
      (prRef opts pr.Number ++ " (Blocked & Draft)") ∈ (prSummaryLists opts prs).1) ∧
    (∀ s ∈ (prSummaryLists opts prs).2, ∃ pr ∈ prs,
      pr.IsDraft = true ∧ pr.IsBlocked = false ∧ s = prRef opts pr.Number) ∧
    (∀ s ∈ (prSummaryLists opts prs).1, ∃ pr ∈ prs,
      pr.IsBlocked = true ∧
        (pr.IsDraft = true ∧ s = prRef opts pr.Number ++ " (Blocked & Draft)" ∨
          pr.IsDraft = false ∧ s = prRef opts pr.Number)) := by
  rw [prSummaryLists_eq]
  refine ⟨?_, ?_, ?_⟩
  · intro pr hpr hb hd
    simp only [List.mem_filterMap]
    refine ⟨(pr.Number, pr.IsBlocked, pr.IsDraft), List.mem_map_of_mem _ hpr, ?_⟩
    simp [blockedEntry, hb, hd, prRef]
  · intro s hs
    simp only [List.mem_filterMap, List.mem_map] at hs
    obtain ⟨p, ⟨pr, hpr, hp⟩, hentry⟩ := hs
    subst hp
    refine ⟨pr, hpr, ?_⟩
    by_cases hb : pr.IsBlocked = true
    · simp [draftEntry, hb] at hentry
    · have hb2 : pr.IsBlocked = false := Bool.of_not_eq_true hb
      by_cases hd : pr.IsDraft = true
      · simp only [draftEntry, hb2, hd] at hentry
        simp only [Bool.false_eq_true, if_false, if_true, Option.some.injEq] at hentry
        exact ⟨hd, hb2, hentry.symm⟩
      · have hd2 : pr.IsDraft = false := Bool.of_not_eq_true hd
        simp [draftEntry, hb2, hd2] at hentry
  · intro s hs
    simp only [List.mem_filterMap, List.mem_map] at hs
    obtain ⟨p, ⟨pr, hpr, hp⟩, hentry⟩ := hs
    subst hp
    refine ⟨pr, hpr, ?_⟩
    by_cases hb : pr.IsBlocked = true
    · refine ⟨hb, ?_⟩
      by_cases hd : pr.IsDraft = true
      · simp only [blockedEntry, hb, hd, Bool.and_self, if_true, Option.some.injEq] at hentry
        exact Or.inl ⟨hd, hentry.symm⟩
      · have hd2 : pr.IsDraft = false := Bool.of_not_eq_true hd
        simp only [blockedEntry, hb, hd2, Bool.and_false, Bool.false_eq_true, if_false,
          if_true, Option.some.injEq] at hentry
        exact Or.inr ⟨hd2, hentry.symm⟩
    · have hb2 : pr.IsBlocked = false := Bool.of_not_eq_true hb
      simp [blockedEntry, hb2] at hentry

lemma blockedEntry_eq_none (owner repo : String) (p : Nat × Bool × Bool) :
    blockedEntry owner repo p = none ↔ p.2.1 = false := by
  obtain ⟨n, b, d⟩ := p
  cases b <;> cases d <;> simp [blockedEntry]

lemma draftEntry_eq_none (owner repo : String) (p : Nat × Bool × Bool) :
    draftEntry owner repo p = none ↔ (p.2.1 = true ∨ p.2.2 = false) := by
  obtain ⟨n, b, d⟩ := p
  cases b <;> cases d <;> simp [draftEntry]

lemma blocked_list_nil (opts : MessageOptions) (prs : List PRInfo)
    (h : ∀ pr ∈ prs, pr.IsBlocked = false) : (prSummaryLists opts prs).1 = [] := by
  rw [prSummaryLists_eq]
  simp only [List.filterMap_eq_nil_iff, List.mem_map]
  rintro p ⟨pr, hpr, rfl⟩
  exact (blockedEntry_eq_none _ _ _).mpr (h pr hpr)

lemma draft_list_nil (opts : MessageOptions) (prs : List PRInfo)
    (h : ∀ pr ∈ prs, pr.IsDraft = false) : (prSummaryLists opts prs).2 = [] := by
  rw [prSummaryLists_eq]
  simp only [List.filterMap_eq_nil_iff, List.mem_map]
  rintro p ⟨pr, hpr, rfl⟩
  exact (draftEntry_eq_none _ _ _).mpr (Or.inr (h pr hpr))

lemma summaryLines_split (opts : MessageOptions) (prs : List PRInfo) :
    summaryLines opts prs =
      if (prSummaryLists opts prs).1 = [] ∧ (prSummaryLists opts prs).2 = [] then
        [naText]
      else
        (if (prSummaryLists opts prs).1 = [] then [] else [blockedText opts prs]) ++
          (if (prSummaryLists opts prs).2 = [] then [] else [draftText opts prs]) := by
  unfold summaryLines
  by_cases h1 : (prSummaryLists opts prs).1 = [] <;>
    by_cases h2 : (prSummaryLists opts prs).2 = [] <;>
      simp [h1, h2, List.length_pos]

lemma blockedText_head (opts : MessageOptions) (prs : List PRInfo) :
    (blockedText opts prs).data.head? = some '🚫' :=
  head_of_append _ _ _ rfl

lemma draftText_head (opts : MessageOptions) (prs : List PRInfo) :
    (draftText opts prs).data.head? = some '📝' :=
  head_of_append _ _ _ rfl

lemma string_ne_of_head (a b : String) (c d : Char) (hc : a.data.head? = some c)
    (hd2 : b.data.head? = some d) (hne : c ≠ d) : a ≠ b := by
  intro h
  rw [h, hd2] at hc
  exact hne (Option.some.inj hc).symm

/-- C10 witness at a concrete input: the blocked-and-draft PR `c10Both` is
listed (annotated) in the blocked summary, and the draft summary of
`[c10Both, c9Draft]` only carries the plain draft PR. -/
theorem blocked_draft_summary_exclusive_witness :
    (prRef c9OptsA c10Both.Number ++ " (Blocked & Draft)")
        ∈ (prSummaryLists c9OptsA [c10Both, c9Draft]).1 ∧
      ∃ pr ∈ [c10Both, c9Draft],
        pr.IsDraft = true ∧ pr.IsBlocked = false ∧
          prRef c9OptsA c9Draft.Number = prRef c9OptsA pr.Number := by
  constructor
  · exact (blocked_draft_summary_exclusive c9OptsA [c10Both, c9Draft]).1 c10Both
      (by decide) (by decide) (by decide)
  · exact (blocked_draft_summary_exclusive c9OptsA [c10Both, c9Draft]).2.1
      (prRef c9OptsA c9Draft.Number) (by decide)

lemma mentionLines_explicit (opts : MessageOptions) (h1 : opts.MentionUsers ≠ "")
    (h2 : parsedMentions opts ≠ []) :
    mentionLines opts = ["", mentionText opts] := by
  unfold mentionLines
  rw [if_neg h1]
  have : (parsedMentions opts).isEmpty = false := by
    rcases hp : parsedMentions opts with _ | ⟨x, xs⟩
    · exact absurd hp h2
    · rfl
  rw [this]
  rfl

lemma mentionLines_subteam (opts : MessageOptions) (h1 : opts.MentionUsers = "")
    (h2 : opts.TeamGroup ≠ "") : mentionLines opts = ["", subteamText opts] := by
  unfold mentionLines
  rw [if_pos h1, if_neg h2]

lemma reportLines_getLast (opts : MessageOptions) (prs : List PRInfo) (d : String)
    (m : String) (hm : mentionLines opts = ["", m]) :
    (reportLines opts prs d).getLast? = some m := by
  unfold reportLines
  rw [hm, getLast?_append_right, getLast?_append_right]
  · rfl
  · simp
  · simp

/-- C9: In the rendered report the footer carries a blocked-items summary
line only if some PR is blocked and a draft-items summary line only if some
PR is draft, with a single `N/A` line when neither applies; and the closing
mention line addresses the explicit chat-ID list when one is configured
(taking priority over a configured team group), otherwise the team-group
handle. -/
theorem report_footer_spec (opts : MessageOptions) (prs : List PRInfo) (d : String) :
    (blockedText opts prs ∈ summaryLines opts prs → ∃ pr ∈ prs, pr.IsBlocked = true) ∧
    (draftText opts prs ∈ summaryLines opts prs → ∃ pr ∈ prs, pr.IsDraft = true) ∧
    ((∀ pr ∈ prs, pr.IsBlocked = false ∧ pr.IsDraft = false) →
      summaryLines opts prs = [naText]) ∧
    (opts.MentionUsers ≠ "" → parsedMentions opts ≠ [] →
      (reportLines opts prs d).getLast? = some (mentionText opts)) ∧
    (opts.MentionUsers = "" → opts.TeamGroup ≠ "" →
      (reportLines opts prs d).getLast? = some (subteamText opts)) := by
  refine ⟨?_, ?_, ?_, ?_, ?_⟩
  · intro hmem
    by_contra hno
    push_neg at hno
    have hall : ∀ pr ∈ prs, pr.IsBlocked = false := fun pr hpr =>
      Bool.of_not_eq_true (hno pr hpr)
    have h1 := blocked_list_nil opts prs hall
    rw [summaryLines_split, h1] at hmem
    by_cases h2 : (prSummaryLists opts prs).2 = []
    · rw [if_pos ⟨rfl, h2⟩] at hmem
      have := List.mem_singleton.mp hmem
      exact string_ne_of_head _ naText '🚫' '✅' (blockedText_head opts prs) rfl
        (by decide) this
    · rw [if_neg (fun hc => h2 hc.2), if_pos rfl, if_neg h2] at hmem
      simp only [List.nil_append, List.mem_singleton] at hmem
      exact string_ne_of_head _ _ '🚫' '📝' (blockedText_head opts prs)
        (draftText_head opts prs) (by decide) hmem
  · intro hmem
    by_contra hno
    push_neg at hno
    have hall : ∀ pr ∈ prs, pr.IsDraft = false := fun pr hpr =>
      Bool.of_not_eq_true (hno pr hpr)
    have h2 := draft_list_nil opts prs hall
    rw [summaryLines_split, h2] at hmem
    by_cases h1 : (prSummaryLists opts prs).1 = []
    · rw [if_pos ⟨h1, rfl⟩] at hmem
      have := List.mem_singleton.mp hmem
      exact string_ne_of_head _ naText '📝' '✅' (draftText_head opts prs) rfl
        (by decide) this
    · rw [if_neg (fun hc => h1 hc.1), if_neg h1, if_pos rfl] at hmem
      simp only [List.append_nil, List.mem_singleton] at hmem
      exact string_ne_of_head _ _ '📝' '🚫' (draftText_head opts prs)
        (blockedText_head opts prs) (by decide) hmem
  · intro hall
    have h1 := blocked_list_nil opts prs fun pr hpr => (hall pr hpr).1
    have h2 := draft_list_nil opts prs fun pr hpr => (hall pr hpr).2
    rw [summaryLines_split, if_pos ⟨h1, h2⟩]
  · intro h1 h2
    exact reportLines_getLast opts prs d _ (mentionLines_explicit opts h1 h2)
  · intro h1 h2
    exact reportLines_getLast opts prs d _ (mentionLines_subteam opts h1 h2)

/-- C9 witness at concrete inputs: with one blocked and one draft PR both
summary lines imply the corresponding PR exists; with no PRs the footer is
the single `N/A` line; with `MentionUsers = "U1,U2"` (and a team group also
configured) the closing line is the explicit mention line; with only a team
group it is the subteam mention. -/
theorem report_footer_spec_witness :
    (∃ pr ∈ [c9Blocked, c9Draft], pr.IsBlocked = true) ∧
    (∃ pr ∈ [c9Blocked, c9Draft], pr.IsDraft = true) ∧
    summaryLines c9OptsA [] = [naText] ∧
    (reportLines c9OptsA [c9Blocked, c9Draft] "2025-06-02").getLast? =
      some (mentionText c9OptsA) ∧
    (reportLines c9OptsB [c9Blocked, c9Draft] "2025-06-02").getLast? =
      some (subteamText c9OptsB) := by
  refine ⟨?_, ?_, ?_, ?_, ?_⟩
  · exact (report_footer_spec c9OptsA [c9Blocked, c9Draft] "2025-06-02").1 (by decide)
  · exact (report_footer_spec c9OptsA [c9Blocked, c9Draft] "2025-06-02").2.1 (by decide)
  · exact (report_footer_spec c9OptsA [] "2025-06-02").2.2.1 (by decide)
  · exact (report_footer_spec c9OptsA [c9Blocked, c9Draft] "2025-06-02").2.2.2.1
      (by decide) (by decide)
  · exact (report_footer_spec c9OptsB [c9Blocked, c9Draft] "2025-06-02").2.2.2.2
      (by decide) (by decide)

/-! ## C4: the Collector's author and label filter -/

lemma allow_entry_iff (u author : String) :
    (!(goTrim u == "") && goEqualFold (goTrim u) author) = true ↔
      goTrim u ≠ "" ∧ goToLower (goTrim u) = goToLower author := by
  simp [goEqualFold]

lemma allow_guard_iff (allowed : List String) (author : String) :
    (allowed.any fun u => !(goTrim u == "") && goEqualFold (goTrim u) author) = true ↔
      ∃ u ∈ allowed, goTrim u ≠ "" ∧ goToLower (goTrim u) = goToLower author := by
  simp only [List.any_eq_true, allow_entry_iff]

lemma label_entry_iff (lab : Option String) (filters : List String) :
    (match lab with
      | some nm => filters.any fun f => goContains (goToLower nm) (goToLower f)
      | none => false) = true ↔
      ∃ nm, lab = some nm ∧ ∃ f ∈ filters, goContains (goToLower nm) (goToLower f) = true := by
  cases lab <;> simp [List.any_eq_true]

lemma label_guard_iff (labels : List (Option String)) (filters : List String) :
    (labels.any fun lab =>
      match lab with
      | some nm => filters.any fun f => goContains (goToLower nm) (goToLower f)
      | none => false) = true ↔
      ∃ lab ∈ labels, ∃ nm, lab = some nm ∧
        ∃ f ∈ filters, goContains (goToLower nm) (goToLower f) = true := by
  simp only [List.any_eq_true, label_entry_iff]

lemma skip_guard_true_iff {α : Type} (l : List α) (b : Bool) :
    (decide (l.length > 0) && !b) = true ↔ l ≠ [] ∧ b = false := by
  cases l <;> cases b <;> simp

lemma fetchStep_eq_some_iff (opts : FetchOptions) (pr : GhPR) (res : PRResult) :
    fetchStep opts pr = some res ↔
      ∃ author, pr.user = some author ∧
        (opts.AllowedUsers = [] ∨
          ∃ u ∈ opts.AllowedUsers,
            goTrim u ≠ "" ∧ goToLower (goTrim u) = goToLower author) ∧
        (opts.Labels = [] ∨
          ∃ lab ∈ pr.labels, ∃ nm, lab = some nm ∧
            ∃ f ∈ opts.Labels, goContains (goToLower nm) (goToLower f) = true) ∧
        res = fetchResultOf pr author := by
  cases hu : pr.user with
  | none => simp [fetchStep, hu]
  | some author =>
    simp only [fetchStep, hu, Option.some.injEq]
    by_cases c1 : (decide (opts.AllowedUsers.length > 0) &&
        !(opts.AllowedUsers.any fun u =>
          !(goTrim u == "") && goEqualFold (goTrim u) author)) = true
    · obtain ⟨hne, hany⟩ := (skip_guard_true_iff _ _).mp c1
      rw [if_pos c1]
      refine iff_of_false (by simp) ?_
      rintro ⟨a, ha, h2, _, _⟩
      cases ha
      rcases h2 with h2 | h2
      · exact hne h2
      · rw [(allow_guard_iff _ _).mpr h2] at hany
        cases hany
    · rw [if_neg c1]
      have h2 : opts.AllowedUsers = [] ∨
          ∃ u ∈ opts.AllowedUsers,
            goTrim u ≠ "" ∧ goToLower (goTrim u) = goToLower author := by
        rcases hl : opts.AllowedUsers with _ | ⟨x, xs⟩
        · exact Or.inl rfl
        · right
          rw [← hl]
          rw [← allow_guard_iff]
          by_contra hb
          apply c1
          rw [(skip_guard_true_iff _ _)]
          refine ⟨by rw [hl]; simp, ?_⟩
          rcases hv : (opts.AllowedUsers.any fun u =>
              !(goTrim u == "") && goEqualFold (goTrim u) author) with _ | _
          · rfl
          · exact absurd hv hb
      by_cases c2 : (decide (opts.Labels.length > 0) &&
          !(pr.labels.any fun lab =>
            match lab with
            | some nm => opts.Labels.any fun f => goContains (goToLower nm) (goToLower f)
            | none => false)) = true
      · obtain ⟨hne, hany⟩ := (skip_guard_true_iff _ _).mp c2
        rw [if_pos c2]
        refine iff_of_false (by simp) ?_
        rintro ⟨a, ha, _, h3, _⟩
        cases ha
        rcases h3 with h3 | h3
        · exact hne h3
        · rw [(label_guard_iff _ _).mpr h3] at hany
          cases hany
      · rw [if_neg c2]
        have h3 : opts.Labels = [] ∨
            ∃ lab ∈ pr.labels, ∃ nm, lab = some nm ∧
              ∃ f ∈ opts.Labels, goContains (goToLower nm) (goToLower f) = true := by
          rcases hl : opts.Labels with _ | ⟨x, xs⟩
          · exact Or.inl rfl
          · right
            rw [← hl, ← label_guard_iff]
            by_contra hb
            apply c2
            rw [(skip_guard_true_iff _ _)]
            refine ⟨by rw [hl]; simp, ?_⟩
            rcases hv : (pr.labels.any fun lab =>
                match lab with
                | some nm => opts.Labels.any fun f =>
                    goContains (goToLower nm) (goToLower f)
                | none => false) with _ | _
            · rfl
            · exact absurd hv hb
        constructor
        · intro he
          exact ⟨author, rfl, h2, h3, (Option.some.inj he).symm⟩
        · rintro ⟨a, ha, _, _, hres⟩
          cases ha
          rw [hres]

/-- C4 (amended): a PR survives the Collector filter exactly when it has an
author, the allow-list is empty or the author case-insensitively equals the
whitespace-trimmed form of some allow-list entry whose trimmed form is
non-blank, and the label filter is empty or some named PR label contains
(case-insensitive substring match) some filter term. -/
theorem fetchPRsFilter_mem_iff (opts : FetchOptions) (allPRs : List GhPR)
    (res : PRResult) :
    res ∈ fetchPRsFilter opts allPRs ↔
      ∃ pr ∈ allPRs, ∃ author, pr.user = some author ∧
        (opts.AllowedUsers = [] ∨
          ∃ u ∈ opts.AllowedUsers,
            goTrim u ≠ "" ∧ goToLower (goTrim u) = goToLower author) ∧
        (opts.Labels = [] ∨
          ∃ lab ∈ pr.labels, ∃ nm, lab = some nm ∧
            ∃ f ∈ opts.Labels, goContains (goToLower nm) (goToLower f) = true) ∧
        res = fetchResultOf pr author := by
  unfold fetchPRsFilter
  rw [List.mem_filterMap]
  simp only [fetchStep_eq_some_iff]

/-- C4 counterexample: with the allow-list entry `" alice "` (padded with
whitespace) the code includes a PR authored by `alice`, although `alice`
does not case-insensitively equal the (non-blank) entry `" alice "` itself —
the code compares against the trimmed entry, which the claim as stated does
not allow for. -/
theorem fetchStep_untrimmed_entry_included :
    (fetchStep c4Opts c4PR).isSome = true ∧ claimIncluded c4Opts c4PR = false := by
  decide

/-! ## C5: per-ticket isolation of the enricher -/

lemma ticketMapFind_append (m : List (String × TicketInfo)) (k : String)
    (v : TicketInfo) (q : String) :
    ticketMapFind (m ++ [(k, v)]) q = if k = q then some v else ticketMapFind m q := by
  unfold ticketMapFind
  rw [List.foldl_append]
  rfl

lemma foldl_ticketsStep_find_of_notmem (opts : JiraFetchOptions)
    (remote : String → JiraLookup) (ids : List String)
    (acc : List (String × TicketInfo)) (tid : String) (h : tid ∉ ids) :
    ticketMapFind (ids.foldl (ticketsStep opts remote) acc) tid = ticketMapFind acc tid := by
  induction ids generalizing acc with
  | nil => rfl
  | cons id rest ih =>
    have hid : id ≠ tid := fun he => h (he ▸ List.mem_cons_self id rest)
    have hrest : tid ∉ rest := fun hr => h (List.mem_cons_of_mem id hr)
    rw [List.foldl_cons, ih _ hrest]
    unfold ticketsStep
    by_cases hz : id = ""
    · rw [if_pos hz]
    · rw [if_neg hz]
      cases fetchTicketInfo opts remote id with
      | error e => rw [ticketMapFind_append, if_neg hid]
      | ok info => rw [ticketMapFind_append, if_neg hid]

lemma foldl_ticketsStep_find (opts : JiraFetchOptions)
    (remote : String → JiraLookup) (ids : List String)
    (acc : List (String × TicketInfo)) (tid : String) (htid : tid ≠ "")
    (hmem : tid ∈ ids) :
    ticketMapFind (ids.foldl (ticketsStep opts remote) acc) tid =
      some (match fetchTicketInfo opts remote tid with
        | .error e =>
          { TicketID := tid, Status := "Error", Summary := "Error: " ++ e,
            IsBlocked := false }
        | .ok info => info) := by
  induction ids generalizing acc with
  | nil => cases hmem
  | cons id rest ih =>
    by_cases hr : tid ∈ rest
    · rw [List.foldl_cons]
      exact ih _ hr
    · have hid : id = tid := by
        rcases List.mem_cons.mp hmem with h | h
        · exact h.symm
        · exact absurd h hr
      subst hid
      rw [List.foldl_cons, foldl_ticketsStep_find_of_notmem opts remote rest _ id hr]
      unfold ticketsStep
      rw [if_neg htid]
      cases hf : fetchTicketInfo opts remote id with
      | error e => rw [ticketMapFind_append, if_pos rfl]
      | ok info => rw [ticketMapFind_append, if_pos rfl]

/-- C5: the batch enricher `FetchTicketsInfo` never returns an error, and
each identifier is looked up independently: whatever the remote does on the
other identifiers, an identifier answered with 404 maps to a Ticket Info
with status `Not Found`, and one answered with any other failure maps to a
Ticket Info with status `Error` and the error text as summary. -/
theorem fetchTicketsInfo_isolation (opts : JiraFetchOptions)
    (remote : String → JiraLookup) (ids : List String) :
    ∃ m, fetchTicketsInfo opts remote ids = .ok m ∧
      ∀ tid, opts.Username ≠ "" → opts.APIToken ≠ "" → opts.URL ≠ "" →
        tid ∈ ids → tid ≠ "" →
        (remote tid = .notFound →
          ticketMapFind m tid = some
            { TicketID := tid, Status := "Not Found", Summary := "Ticket not found",
              IsBlocked := false }) ∧
        (∀ msg, remote tid = .failure msg →
          ticketMapFind m tid = some
            { TicketID := tid, Status := "Error",
              Summary := "Error: " ++ ("error fetching JIRA ticket " ++ tid ++ ": " ++ msg),
              IsBlocked := false }) := by
  refine ⟨ids.foldl (ticketsStep opts remote) [], rfl, ?_⟩
  intro tid hu ha hurl hmem htid
  have hcred : ¬(opts.Username = "" ∨ opts.APIToken = "" ∨ opts.URL = "") := by
    rintro (h | h | h)
    · exact hu h
    · exact ha h
    · exact hurl h
  have hfind := foldl_ticketsStep_find opts remote ids [] tid htid hmem
  constructor
  · intro h404
    rw [hfind]
    unfold fetchTicketInfo
    rw [if_neg htid, if_neg hcred, h404]
  · intro msg hfail
    rw [hfind]
    unfold fetchTicketInfo
    rw [if_neg htid, if_neg hcred, hfail]

/-- C5 witness: with configured credentials, a remote where `POKER-7` is
missing and `POKER-8` fails with a server error, the batch returns without
error, with a `Not Found` entry and an `Error` entry respectively. -/
theorem fetchTicketsInfo_isolation_witness :
    ∃ m, fetchTicketsInfo c5Opts c5Remote c5IDs = .ok m ∧
      ticketMapFind m "POKER-7" = some
        { TicketID := "POKER-7", Status := "Not Found",
          Summary := "Ticket not found", IsBlocked := false } ∧
      ticketMapFind m "POKER-8" = some
        { TicketID := "POKER-8", Status := "Error",
          Summary := "Error: " ++ ("error fetching JIRA ticket " ++ "POKER-8" ++ ": " ++ "boom"),
          IsBlocked := false } := by
  obtain ⟨m, hok, hall⟩ := fetchTicketsInfo_isolation c5Opts c5Remote c5IDs
  refine ⟨m, hok, ?_, ?_⟩
  · exact (hall "POKER-7" (by decide) (by decide) (by decide) (by decide)
      (by decide)).1 (by decide)
  · exact (hall "POKER-8" (by decide) (by decide) (by decide) (by decide)
      (by decide)).2 "boom" (by decide)

/-! ## C2: behaviour when tracker credentials are missing -/

/-- C2 counterexample: in the modular pipeline, with entirely unconfigured
JIRA credentials, a collected PR carrying a ticket ends up with ticket status
`Error` — the enricher is not skipped and the PR does not keep an empty
ticket status. -/
theorem missing_creds_pr_status_error :
    (middletierConvert [] (middletierJiraInfo c2Opts c2Remote [c2GhPR]) c2GhPR).JiraStatus
        = "Error" ∧
      (middletierConvert [] (middletierJiraInfo c2Opts c2Remote [c2GhPR]) c2GhPR).JiraStatus
        ≠ "" := by
  decide

lemma hasTicket_any_iff (prs : List PullRequestInfo) :
    (prs.any fun pr => !(pr.JiraTicket == "")) = true ↔
      ∃ pr ∈ prs, pr.JiraTicket ≠ "" := by
  simp [List.any_eq_true]

/-- C2 (amended): when tracker credentials are missing, the monolithic
pipeline's `UpdateJiraInfo` skips enrichment with a warning and leaves every
PR (hence its empty status) untouched, while the modular `FetchTicketsInfo`
is not skipped: every looked-up identifier yields a Ticket Info with status
`Error` carrying the credential error as summary, and the batch still
returns without error. -/
theorem missing_jira_creds_behavior :
    (∀ (config : Config) (remote : String → JiraLookup) (prs : List PullRequestInfo),
      (config.JiraUsername = "" ∨ config.JiraAPIToken = "" ∨ config.JiraURL = "") →
      (updateJiraInfo config remote prs).1 = prs ∧
        ((∃ pr ∈ prs, pr.JiraTicket ≠ "") →
          (updateJiraInfo config remote prs).2 =
            ["Warning: JIRA credentials not fully configured, JIRA status will show as \x27Unknown\x27"])) ∧
    (∀ (opts : JiraFetchOptions) (remote : String → JiraLookup)
        (ids : List String) (tid : String),
      (opts.Username = "" ∨ opts.APIToken = "" ∨ opts.URL = "") →
      tid ∈ ids → tid ≠ "" →
      ∃ m, fetchTicketsInfo opts remote ids = .ok m ∧
        ticketMapFind m tid = some
          { TicketID := tid, Status := "Error",
            Summary := "Error: JIRA credentials not fully configured",
            IsBlocked := false }) := by
  constructor
  · intro config remote prs hcred
    by_cases hany : (prs.any fun pr => !(pr.JiraTicket == "")) = true
    · have h1 : ¬((!(prs.any fun pr => !(pr.JiraTicket == ""))) = true) := by
        rw [hany]
        decide
      unfold updateJiraInfo
      rw [if_neg h1, if_pos hcred]
      exact ⟨rfl, fun _ => rfl⟩
    · have h1 : (!(prs.any fun pr => !(pr.JiraTicket == ""))) = true := by
        rcases hv : (prs.any fun pr => !(pr.JiraTicket == "")) with _ | _
        · rfl
        · exact absurd hv hany
      unfold updateJiraInfo
      rw [if_pos h1]
      refine ⟨rfl, fun hex => ?_⟩
      exact absurd ((hasTicket_any_iff prs).mpr hex) hany
  · intro opts remote ids tid hcred hmem htid
    refine ⟨ids.foldl (ticketsStep opts remote) [], rfl, ?_⟩
    rw [foldl_ticketsStep_find opts remote ids [] tid htid hmem]
    unfold fetchTicketInfo
    rw [if_neg htid, if_pos hcred]
    rfl

/-- C2 witness at concrete inputs: a configuration with no JIRA credentials
leaves the fetched PR list untouched with the warning logged, and the
modular batch lookup yields an `Error`-status entry for the ticket. -/
theorem missing_jira_creds_behavior_witness :
    ((updateJiraInfo c2Config c2Remote [c2PRInfo]).1 = [c2PRInfo] ∧
      (updateJiraInfo c2Config c2Remote [c2PRInfo]).2 =
        ["Warning: JIRA credentials not fully configured, JIRA status will show as \x27Unknown\x27"]) ∧
    ∃ m, fetchTicketsInfo c2Opts c2Remote ["POKER-9"] = .ok m ∧
      ticketMapFind m "POKER-9" = some
        { TicketID := "POKER-9", Status := "Error",
          Summary := "Error: JIRA credentials not fully configured",
          IsBlocked := false } := by
  constructor
  · have h := missing_jira_creds_behavior.1 c2Config c2Remote [c2PRInfo] (by decide)
    exact ⟨h.1, h.2 (by decide)⟩
  · exact missing_jira_creds_behavior.2 c2Opts c2Remote ["POKER-9"] "POKER-9"
      (by decide) (by decide) (by decide)

/-! ## C3: empty channel membership -/

/-- C3 counterexample: with an empty channel membership the monolithic
pipeline still publishes — `RunReport` posts a (zero-PR) report message
although the claim says nothing is published. -/
theorem runReport_empty_channel_still_publishes :
    (getSlackChannelUsers c3Config []).1 = [] ∧
      (runReport c3Config [] [] c3Remote "2025-06-02").2 ≠ none := by
  decide

/-- C3 (amended): when the resolved permitted user set is empty, zero PRs
are collected without calling GitHub, the zero-result state is logged as a
warning (not an error), but the pipeline does not short-circuit publication:
the empty report (`Total Open PRs: 0`) is still posted to the channel. -/
theorem empty_channel_zero_prs_report (config : Config) (members : List SlackUser)
    (pages : List (List GhPR)) (remote : String → JiraLookup) (d : String)
    (h : (getSlackChannelUsers config members).1 = []) :
    (fetchPullRequests config members pages).1 = [] ∧
      (fetchPullRequests config members pages).2 =
        ["Warning: No users found in Slack channel, no PRs will be included"] ∧
      (runReport config members pages remote d).2 =
        some (sendSlackMessageText config [] d) := by
  have hfe : fetchPullRequests config members pages =
      ([], ["Warning: No users found in Slack channel, no PRs will be included"]) := by
    simp only [fetchPullRequests, h]
    rfl
  have hup : updateJiraInfo config remote [] = ([], []) := by
    unfold updateJiraInfo
    rfl
  refine ⟨by rw [hfe], by rw [hfe], ?_⟩
  simp only [runReport, hfe, hup]

/-- C3 witness at a concrete input: an empty member list leads to zero
PRs, the warning, and the zero-PR report still being published. -/
theorem empty_channel_zero_prs_report_witness :
    (fetchPullRequests c3Config [] []).1 = [] ∧
      (fetchPullRequests c3Config [] []).2 =
        ["Warning: No users found in Slack channel, no PRs will be included"] ∧
      (runReport c3Config [] [] c3Remote "2025-06-02").2 =
        some (sendSlackMessageText c3Config [] "2025-06-02") :=
  empty_channel_zero_prs_report c3Config [] [] c3Remote "2025-06-02" (by decide)

/-! ## C1: pagination -/

/-- C1 (divergence witness): on a repository with 101 open PRs served as two
pages, `FetchPRs` returns only the 100 PRs of the first page — the PR on the
second page is open, passes every filter, yet is missing from the result,
while an exhaustive-pagination fetch (filtering the concatenation of all
pages) would include it.  The code issues a single `PullRequests.List` call
and never follows `resp.NextPage`. -/
theorem fetchPRs_single_page_drops_open_PR :
    fetchPRs c1Opts c1Pages = .ok c1Fetched ∧
      c1Fetched.length = 100 ∧
      c1Pages.flatten.length = 101 ∧
      c1PR 100 ∈ c1Pages.flatten ∧
      (fetchStep c1Opts (c1PR 100)).isSome = true ∧
      fetchResultOf (c1PR 100) "alice" ∉ c1Fetched ∧
      fetchResultOf (c1PR 100) "alice" ∈ fetchPRsFilter c1Opts c1Pages.flatten := by
  refine ⟨rfl, by decide, by decide, by decide, by decide, by decide, by decide⟩

end PRReporter
